import Mathlib

/-!
Verification of the pendulum-control simulation (`src/main.rs`).

Scalars are modelled as exact rationals (`ℚ`): every `f32` literal of the
source becomes the rational it denotes, and floating-point rounding is
idealised away.  The transcendental `sin` used by the nonlinear dynamics is
taken as an arbitrary function parameter `sinq : ℚ → ℚ`, since no claim
depends on its values.  Bevy component structs become Lean structures, and
each Bevy system becomes a pure function from the components it queries to
their updated values; a Rust `unwrap` that can panic is modelled by an
`Option` result (`none` = panic).
-/

namespace PendulumControl

/-- `DT` from `main.rs`: the fixed tick, `0.05` seconds. -/
def DT : ℚ := 1/20

/-- `G` from `main.rs`: gravity, `9.8`. -/
def G : ℚ := 49/5

/-- `std::f32::consts::PI`, the `f32` closest to π (exact value `13176795 / 2^22`). -/
def PI : ℚ := 13176795/4194304

/-- Rust `f32::clamp(lo, hi)`: below `lo` gives `lo`, above `hi` gives `hi`,
otherwise the value itself (Rust asserts `lo ≤ hi`; every call site here
satisfies it). -/
def clampQ (x lo hi : ℚ) : ℚ :=
  if x < lo then lo else if hi < x then hi else x

/-- The `Pendulum` component struct of `main.rs` (`Vec3` offset modelled as a
rational triple; history vectors as lists). -/
structure Pendulum where
  a : ℚ
  da : ℚ
  length : ℚ
  friction : ℚ
  control : ℚ
  control_power : ℚ
  control_history : List ℚ
  offset : ℚ × ℚ × ℚ

/-- `impl Default for Pendulum`. -/
def Pendulum.default : Pendulum :=
  { a := PI + 1/2
    da := 1/10
    length := 10
    friction := 0
    control := 0
    control_power := 5
    control_history := []
    offset := (0, 0, 0) }

/-- `Pendulum::from_offset`. -/
def Pendulum.from_offset (x y : ℚ) : Pendulum :=
  { Pendulum.default with offset := (x, y, 0) }

/-- `Pendulum::set_control`: clamps the value into `[-1, 1]` and stores it in
the `control` field. -/
def Pendulum.set_control (p : Pendulum) (value : ℚ) : Pendulum :=
  { p with control := clampQ value (-1) 1 }

/-- The `PID` component struct of `main.rs`. -/
structure PID where
  set_point : ℚ
  proportional_gain : ℚ
  integral_gain : ℚ
  derivative_gain : ℚ
  accumulator : ℚ
  accumulator_enabled : Bool
  error_history : List ℚ
  accumulator_history : List ℚ

/-- `impl Default for PID` (derived: numeric fields `0`, latch `false`,
histories empty). -/
def PID.default : PID :=
  { set_point := 0
    proportional_gain := 0
    integral_gain := 0
    derivative_gain := 0
    accumulator := 0
    accumulator_enabled := false
    error_history := []
    accumulator_history := [] }

/-- A 2×2 matrix of rationals (nalgebra `Matrix2<f32>`), row-major fields. -/
structure Mat2 where
  m00 : ℚ
  m01 : ℚ
  m10 : ℚ
  m11 : ℚ

/-- A 2-vector of rationals (nalgebra `Matrix2x1<f32>` / `Matrix1x2<f32>`). -/
structure Vec2 where
  x0 : ℚ
  x1 : ℚ

def Mat2.add (M N : Mat2) : Mat2 :=
  ⟨M.m00 + N.m00, M.m01 + N.m01, M.m10 + N.m10, M.m11 + N.m11⟩

def Mat2.sub (M N : Mat2) : Mat2 :=
  ⟨M.m00 - N.m00, M.m01 - N.m01, M.m10 - N.m10, M.m11 - N.m11⟩

def Mat2.mul (M N : Mat2) : Mat2 :=
  ⟨M.m00 * N.m00 + M.m01 * N.m10, M.m00 * N.m01 + M.m01 * N.m11,
   M.m10 * N.m00 + M.m11 * N.m10, M.m10 * N.m01 + M.m11 * N.m11⟩

def Mat2.transpose (M : Mat2) : Mat2 :=
  ⟨M.m00, M.m10, M.m01, M.m11⟩

def Mat2.smul (c : ℚ) (M : Mat2) : Mat2 :=
  ⟨c * M.m00, c * M.m01, c * M.m10, c * M.m11⟩

/-- The 2×2 identity (nalgebra `Matrix2::identity()`). -/
def Mat2.id : Mat2 := ⟨1, 0, 0, 1⟩

/-- Matrix–column-vector product `M · v`. -/
def Mat2.mulVec (M : Mat2) (v : Vec2) : Vec2 :=
  ⟨M.m00 * v.x0 + M.m01 * v.x1, M.m10 * v.x0 + M.m11 * v.x1⟩

/-- Row-vector–matrix product `vᵀ · M` (result viewed as a row vector). -/
def vecMulMat (v : Vec2) (M : Mat2) : Vec2 :=
  ⟨v.x0 * M.m00 + v.x1 * M.m10, v.x0 * M.m01 + v.x1 * M.m11⟩

def Vec2.dot (u v : Vec2) : ℚ :=
  u.x0 * v.x0 + u.x1 * v.x1

/-- Outer product of a column vector and a row vector. -/
def Vec2.outer (u v : Vec2) : Mat2 :=
  ⟨u.x0 * v.x0, u.x0 * v.x1, u.x1 * v.x0, u.x1 * v.x1⟩

def Vec2.scale (c : ℚ) (v : Vec2) : Vec2 :=
  ⟨c * v.x0, c * v.x1⟩

/-- Elementwise max-abs norm of a 2×2 matrix (the spec allows an elementwise
norm for the Riccati convergence test; this model uses it consistently). -/
def Mat2.maxAbs (M : Mat2) : ℚ :=
  max (max |M.m00| |M.m01|) (max |M.m10| |M.m11|)

/-- The `LQR` component struct of `main.rs` (the 1×1 matrix `r` modelled as a
scalar). -/
structure LQR where
  set_point : ℚ
  a : Mat2
  b : Vec2
  q : Mat2
  r : ℚ

/-- `Pendulum::get_system`: the discretised linearisation `(A, B)` of the
pendulum about its current parameters, with `dt2 = DT^2`. -/
def Pendulum.get_system (p : Pendulum) : Mat2 × Vec2 :=
  let dt2 := DT ^ 2
  (⟨1 + G / (2 * p.length) * dt2, DT - p.friction / 2 * dt2,
    G / p.length * DT, 1 - p.friction * DT⟩,
   ⟨p.control_power / 2 * dt2, p.control_power * DT⟩)

/-- The error values of the `lqr` crate named in the spec. -/
inductive RiccatiError where
  | DidNotConverge : RiccatiError
  | SingularGainMatrix : RiccatiError

/-- Modelled from the spec: one step of the discrete-time Riccati recursion
`P ↦ Q + Aᵀ P A − Aᵀ P B (R + Bᵀ P B)⁻¹ Bᵀ P A` used by the `lqr` crate's
solver, whose source is not part of this repository.  The 1×1 inversion is a
rational reciprocal (with `1/0 = 0`; on every input used below the scalar is
nonzero whenever the correction term is nonzero). -/
def dare_step (A : Mat2) (B : Vec2) (Q : Mat2) (R : ℚ) (P : Mat2) : Mat2 :=
  let AtP := A.transpose.mul P
  let AtPA := AtP.mul A
  let AtPB := AtP.mulVec B
  let BtP := vecMulMat B P
  let BtPB := BtP.dot B
  let BtPA := vecMulMat BtP A
  (Q.add AtPA).sub (Mat2.smul (1 / (R + BtPB)) (Vec2.outer AtPB BtPA))

/-- Modelled from the spec: the iteration bound of the Riccati solver
("a few thousand" iterations). -/
def riccati_max_iter : ℕ := 2000

/-- Modelled from the spec: the bounded Riccati iteration.  Starting from the
given `P`, repeat `dare_step` until the elementwise norm of the difference of
successive iterates is below `tol`; if the fuel runs out first, fail with
`DidNotConverge`. -/
def riccati_iter (A : Mat2) (B : Vec2) (Q : Mat2) (R tol : ℚ) :
    ℕ → Mat2 → Except RiccatiError Mat2
  | 0, _ => .error .DidNotConverge
  | n + 1, P =>
    let Pn := dare_step A B Q R P
    if (Pn.sub P).maxAbs < tol then .ok Pn else riccati_iter A B Q R tol n Pn

/-- Modelled from the spec: `RiccatiSolver.solve(A,B,Q,R,tolerance)`, iterating
from `P₀ = Q` with the bounded iteration. -/
def riccati_solve (A : Mat2) (B : Vec2) (Q : Mat2) (R tol : ℚ) :
    Except RiccatiError Mat2 :=
  riccati_iter A B Q R tol riccati_max_iter Q

/-- Modelled from the spec: `LQRController::compute_gain`: solve the DARE, then
derive the gain `K = (R + Bᵀ P B)⁻¹ Bᵀ P A` (a 1×2 row vector), failing with
`SingularGainMatrix` when the scalar `R + Bᵀ P B` is exactly zero. -/
def compute_gain (A : Mat2) (B : Vec2) (Q : Mat2) (R tol : ℚ) :
    Except RiccatiError Vec2 :=
  match riccati_solve A B Q R tol with
  | .error e => .error e
  | .ok P =>
    let s := R + (vecMulMat B P).dot B
    if s = 0 then .error .SingularGainMatrix
    else .ok (Vec2.scale (1 / s) (vecMulMat (vecMulMat B P) A))

/-- `acceleration` from `main.rs`:
`-gravity * a.sin() / length - friction * da`, with `sin` as a parameter. -/
def acceleration (sinq : ℚ → ℚ) (p : Pendulum) (gravity : ℚ) : ℚ :=
  -gravity * sinq p.a / p.length - p.friction * p.da

/-- The `move_pendulum` system: semi-implicit Euler — the velocity is updated
first and the updated velocity advances the angle. -/
def move_pendulum (sinq : ℚ → ℚ) (p : Pendulum) : Pendulum :=
  let da := p.da + (acceleration sinq p G + p.control * p.control_power) * DT
  { p with da := da, a := p.a + da * DT }

/-- The `history` system: append the current control to the pendulum's control
history; if a PID is attached, also append this tick's error
(`set_point - a`, as written in the source) and accumulator. -/
def history (p : Pendulum) (pid : Option PID) : Pendulum × Option PID :=
  let p1 := { p with control_history := p.control_history ++ [p.control] }
  match pid with
  | none => (p1, none)
  | some c =>
    (p1, some { c with
      error_history := c.error_history ++ [c.set_point - p.a]
      accumulator_history := c.accumulator_history ++ [c.accumulator] })

/-- The `control_pendulum_keyboard` system for one pendulum: `-1` per left
arrow, `+1` per right arrow, summed and passed to `set_control`. -/
def control_pendulum_keyboard (left right : Bool) (p : Pendulum) : Pendulum :=
  let input := (if left then (-1 : ℚ) else 0) + (if right then (1 : ℚ) else 0)
  p.set_control input

/-- The `control_pendulum_mouse` system for one pendulum: accumulated mouse
x-deltas divided by 5; if the left button is not pressed the system returns
without touching the pendulum. -/
def control_pendulum_mouse (deltas : List ℚ) (pressed : Bool) (p : Pendulum) :
    Pendulum :=
  let input := deltas.sum / 5
  if !pressed then p else p.set_control input

/-- The `control_pendulum_pid` system for one (Pendulum, PID) pair:
proportional and derivative terms, the `|error| < 0.05` latch, the
headroom-clamped integral accumulator, and the final `set_control`. -/
def control_pendulum_pid (p : Pendulum) (pid : PID) : Pendulum × PID :=
  let error := p.a - pid.set_point
  let prop := error * pid.proportional_gain
  let der := p.da * pid.derivative_gain
  let control := prop + der
  let enabled := if |error| < 1/20 then true else pid.accumulator_enabled
  let acc :=
    if enabled then
      clampQ (pid.accumulator + error * pid.integral_gain * DT)
        (min (-1 - control) 0) (max (1 - control) 0)
    else pid.accumulator
  let pid1 := { pid with accumulator_enabled := enabled, accumulator := acc }
  (p.set_control (prop + acc + der), pid1)

/-- The `control_pendulum_lqr` system for one (Pendulum, LQR) pair: recompute
the gain from the stored `(A,B,Q,R)` with tolerance `1e-7`, form
`x = [a - set_point, da - 0]`, apply `u = -K·x` through `set_control`.  The
source `unwrap`s the solver result, so a solver failure panics: modelled as
`none`. -/
def control_pendulum_lqr (p : Pendulum) (lqr : LQR) : Option Pendulum :=
  match compute_gain lqr.a lqr.b lqr.q lqr.r (1/10000000) with
  | .error _ => none
  | .ok k =>
    let x : Vec2 := ⟨p.a - lqr.set_point, p.da - 0⟩
    let u := -(k.dot x)
    some (p.set_control u)

/-- The LQR entity spawned by `add_pendulum`: a pendulum offset to `(7,0)`,
with `(A,B)` computed once from that pendulum's then-current parameters via
`get_system`, `Q = I`, `R = 1`, `set_point = PI`. -/
def add_pendulum_lqr : Pendulum × LQR :=
  let p := Pendulum.from_offset 7 0
  let ab := p.get_system
  (p, { set_point := PI, a := ab.1, b := ab.2, q := Mat2.id, r := 1 })

/-- The PID entity spawned by `add_pendulum`: a pendulum offset to `(-7,0)`
with gains `Kp = -8`, `Ki = -5.5`, `Kd = -4` and `set_point = PI`. -/
def add_pendulum_pid : Pendulum × PID :=
  (Pendulum.from_offset (-7) 0,
   { PID.default with
      set_point := PI
      proportional_gain := -8
      integral_gain := -11/2
      derivative_gain := -4 })

/-- The Reset button of `ui_example`: restore `a` and `da` from
`Pendulum::default()`, clear the control history, and if a PID is attached
zero its accumulator, clear its latch and empty its histories. -/
def reset_pendulum (p : Pendulum) (pid : Option PID) : Pendulum × Option PID :=
  let t := Pendulum.default
  let p1 := { p with a := t.a, da := t.da, control_history := [] }
  (p1, pid.map fun c =>
    { c with
      accumulator := 0
      accumulator_enabled := false
      error_history := []
      accumulator_history := [] })

/-- The set-point slider of `ui_example`: write the new value; if it differs
from the old one, zero the accumulator and clear the latch. -/
def ui_set_point (pid : PID) (v : ℚ) : PID :=
  let old := pid.set_point
  let pid1 := { pid with set_point := v }
  if pid1.set_point ≠ old then
    { pid1 with accumulator := 0, accumulator_enabled := false }
  else pid1

/-! ## Helper lemmas -/

/-- Unfolding the Riccati iteration one step. -/
theorem riccati_iter_succ (A : Mat2) (B : Vec2) (Q : Mat2) (R tol : ℚ) (n : ℕ) (P : Mat2) :
    riccati_iter A B Q R tol (n + 1) P =
      (if ((dare_step A B Q R P).sub P).maxAbs < tol then .ok (dare_step A B Q R P)
       else riccati_iter A B Q R tol n (dare_step A B Q R P)) := rfl

/-- With `lo ≤ hi`, the clamp lands in `[lo, hi]`. -/
theorem clampQ_bounds (x lo hi : ℚ) (h : lo ≤ hi) :
    lo ≤ clampQ x lo hi ∧ clampQ x lo hi ≤ hi := by
  unfold clampQ
  split_ifs <;> constructor <;> linarith

/-- With an uncontrollable system (`B = 0`) the Riccati step is affine:
`P ↦ Q + Aᵀ P A`. -/
theorem dare_step_B_zero (A Q : Mat2) (R : ℚ) (P : Mat2) :
    dare_step A ⟨0, 0⟩ Q R P = Q.add ((A.transpose.mul P).mul A) := by
  simp only [dare_step, Mat2.add, Mat2.sub, Mat2.mul, Mat2.transpose, Mat2.smul,
    Mat2.mulVec, vecMulMat, Vec2.dot, Vec2.outer]
  congr 1 <;> ring

theorem mat2_add_sub_cancel (P X : Mat2) : (P.add X).sub P = X := by
  cases X
  simp only [Mat2.add, Mat2.sub]
  congr 1 <;> ring

theorem mat2_add_assoc (X Y Z : Mat2) : X.add (Y.add Z) = (X.add Y).add Z := by
  simp only [Mat2.add]
  congr 1 <;> ring

theorem conj_add (A P X : Mat2) :
    (A.transpose.mul (P.add X)).mul A =
      ((A.transpose.mul P).mul A).add ((A.transpose.mul X).mul A) := by
  simp only [Mat2.mul, Mat2.transpose, Mat2.add]
  congr 1 <;> ring

theorem conj_gram (A N : Mat2) :
    (A.transpose.mul (N.transpose.mul N)).mul A = (N.mul A).transpose.mul (N.mul A) := by
  simp only [Mat2.mul, Mat2.transpose]
  congr 1 <;> ring

theorem conj_id (A : Mat2) : (A.transpose.mul Mat2.id).mul A = A.transpose.mul A := by
  simp only [Mat2.mul, Mat2.transpose, Mat2.id]
  congr 1 <;> ring

theorem gram_m00 (N : Mat2) : (N.transpose.mul N).m00 = N.m00 ^ 2 + N.m10 ^ 2 := by
  simp only [Mat2.mul, Mat2.transpose]
  ring

/-- For an unstable, uncontrollable linearisation (`B = 0`, nonnegative `A`
with `A₀₀ ≥ 1`), the Riccati iterates never approach a fixed point: every
difference of successive iterates is a Gram matrix whose `(0,0)` entry stays
at least `1`, so the bounded iteration always fails with `DidNotConverge`. -/
theorem riccati_iter_unstable_uncontrollable (A : Mat2)
    (hA00 : 1 ≤ A.m00) (hA01 : 0 ≤ A.m01) (hA10 : 0 ≤ A.m10) (hA11 : 0 ≤ A.m11) :
    ∀ (n : ℕ) (P N : Mat2),
      dare_step A ⟨0, 0⟩ Mat2.id 1 P = P.add (N.transpose.mul N) →
      0 ≤ N.m00 → 0 ≤ N.m01 → 0 ≤ N.m10 → 0 ≤ N.m11 → 1 ≤ N.m00 →
      riccati_iter A ⟨0, 0⟩ Mat2.id 1 (1/10000000) n P = .error .DidNotConverge := by
  have hA00n : 0 ≤ A.m00 := le_trans zero_le_one hA00
  intro n
  induction n with
  | zero => intro P N _ _ _ _ _ _; rfl
  | succ n ih =>
    intro P N hP h00 h01 h10 h11 h1
    rw [riccati_iter_succ, hP, mat2_add_sub_cancel]
    have hm00 : 1 ≤ (N.transpose.mul N).m00 := by
      rw [gram_m00]; nlinarith
    have hnotlt : ¬ (N.transpose.mul N).maxAbs < 1/10000000 := by
      have h2 : (N.transpose.mul N).m00 ≤ |(N.transpose.mul N).m00| := le_abs_self _
      have h3 : |(N.transpose.mul N).m00| ≤ (N.transpose.mul N).maxAbs :=
        le_trans (le_max_left _ _) (le_max_left _ _)
      intro hlt
      linarith
    rw [if_neg hnotlt]
    have hstep : dare_step A ⟨0, 0⟩ Mat2.id 1 (P.add (N.transpose.mul N)) =
        (P.add (N.transpose.mul N)).add ((N.mul A).transpose.mul (N.mul A)) := by
      rw [dare_step_B_zero, conj_add, mat2_add_assoc, ← dare_step_B_zero A Mat2.id 1 P, hP,
        conj_gram]
    refine ih (P.add (N.transpose.mul N)) (N.mul A) hstep ?_ ?_ ?_ ?_ ?_
    · show 0 ≤ N.m00 * A.m00 + N.m01 * A.m10
      exact add_nonneg (mul_nonneg h00 hA00n) (mul_nonneg h01 hA10)
    · show 0 ≤ N.m00 * A.m01 + N.m01 * A.m11
      exact add_nonneg (mul_nonneg h00 hA01) (mul_nonneg h01 hA11)
    · show 0 ≤ N.m10 * A.m00 + N.m11 * A.m10
      exact add_nonneg (mul_nonneg h10 hA00n) (mul_nonneg h11 hA10)
    · show 0 ≤ N.m10 * A.m01 + N.m11 * A.m11
      exact add_nonneg (mul_nonneg h10 hA01) (mul_nonneg h11 hA11)
    · show 1 ≤ N.m00 * A.m00 + N.m01 * A.m10
      nlinarith [mul_nonneg (sub_nonneg.mpr h1) (sub_nonneg.mpr hA00),
        mul_nonneg h01 hA10]

/-- The linearisation of the default pendulum with the actuator turned off
(`control_power = 0`), written out. -/
theorem get_system_cp_zero :
    ({ Pendulum.default with control_power := 0 } : Pendulum).get_system =
      (⟨40049/40000, 1/20, 49/1000, 1⟩, ⟨0, 0⟩) := by
  simp only [Pendulum.get_system, Pendulum.default, DT, G, Prod.mk.injEq, Mat2.mk.injEq,
    Vec2.mk.injEq]
  norm_num

/-- On the default pendulum with `control_power = 0` the spec's Riccati solver
exhausts its iteration bound: the linearised system is unstable and
uncontrollable, so the solve fails with `DidNotConverge`. -/
theorem riccati_solve_cp_zero_fails :
    riccati_solve ({ Pendulum.default with control_power := 0 } : Pendulum).get_system.1
      ({ Pendulum.default with control_power := 0 } : Pendulum).get_system.2
      Mat2.id 1 (1/10000000) = .error .DidNotConverge := by
  have hA : ({ Pendulum.default with control_power := 0 } : Pendulum).get_system.1 =
      ⟨40049/40000, 1/20, 49/1000, 1⟩ := by rw [get_system_cp_zero]
  have hB : ({ Pendulum.default with control_power := 0 } : Pendulum).get_system.2 =
      ⟨0, 0⟩ := by rw [get_system_cp_zero]
  rw [hA, hB]
  unfold riccati_solve
  refine riccati_iter_unstable_uncontrollable ⟨40049/40000, 1/20, 49/1000, 1⟩
    (by norm_num) (by norm_num) (by norm_num) (by norm_num) riccati_max_iter
    Mat2.id ⟨40049/40000, 1/20, 49/1000, 1⟩ ?_ (by norm_num) (by norm_num)
    (by norm_num) (by norm_num) (by norm_num)
  rw [dare_step_B_zero, conj_id]

/-- A solver failure propagates through the gain computation. -/
theorem compute_gain_of_solve_error (A : Mat2) (B : Vec2) (Q : Mat2) (R tol : ℚ)
    (e : RiccatiError) (h : riccati_solve A B Q R tol = .error e) :
    compute_gain A B Q R tol = .error e := by
  unfold compute_gain
  rw [h]

/-- `compute_gain` propagates the solver failure on that input. -/
theorem compute_gain_cp_zero_fails :
    compute_gain ({ Pendulum.default with control_power := 0 } : Pendulum).get_system.1
      ({ Pendulum.default with control_power := 0 } : Pendulum).get_system.2
      Mat2.id 1 (1/10000000) = .error .DidNotConverge :=
  compute_gain_of_solve_error _ _ _ _ _ _ riccati_solve_cp_zero_fails

/-- A successful solve with a nonzero `R + Bᵀ P B` yields the gain
`K = (R + Bᵀ P B)⁻¹ Bᵀ P A`. -/
theorem compute_gain_of_solve_ok (A : Mat2) (B : Vec2) (Q : Mat2) (R tol : ℚ)
    (P : Mat2) (h : riccati_solve A B Q R tol = .ok P)
    (hs : ¬ (R + (vecMulMat B P).dot B = 0)) :
    compute_gain A B Q R tol =
      .ok (Vec2.scale (1 / (R + (vecMulMat B P).dot B)) (vecMulMat (vecMulMat B P) A)) := by
  unfold compute_gain
  rw [h]
  show (if R + (vecMulMat B P).dot B = 0 then
          (Except.error RiccatiError.SingularGainMatrix : Except RiccatiError Vec2)
        else Except.ok (Vec2.scale (1 / (R + (vecMulMat B P).dot B))
          (vecMulMat (vecMulMat B P) A))) =
      Except.ok (Vec2.scale (1 / (R + (vecMulMat B P).dot B)) (vecMulMat (vecMulMat B P) A))
  rw [if_neg hs]

/-- A trivially convergent gain computation: with `A = 0` the first Riccati
iterate is already a fixed point and the gain is the zero row vector. -/
theorem compute_gain_A_zero :
    compute_gain ⟨0, 0, 0, 0⟩ ⟨0, 0⟩ Mat2.id 1 (1/10000000) = .ok ⟨0, 0⟩ := by
  have hd : dare_step ⟨0, 0, 0, 0⟩ ⟨0, 0⟩ Mat2.id 1 Mat2.id = Mat2.id := by
    simp only [dare_step, Mat2.add, Mat2.sub, Mat2.mul, Mat2.transpose, Mat2.smul,
      Mat2.mulVec, vecMulMat, Vec2.dot, Vec2.outer, Mat2.id, Mat2.mk.injEq]
    norm_num
  have hsolve : riccati_solve ⟨0, 0, 0, 0⟩ ⟨0, 0⟩ Mat2.id 1 (1/10000000) = .ok Mat2.id := by
    show riccati_iter ⟨0, 0, 0, 0⟩ ⟨0, 0⟩ Mat2.id 1 (1/10000000) (1999 + 1) Mat2.id =
      .ok Mat2.id
    rw [riccati_iter_succ, hd]
    simp [Mat2.sub, Mat2.maxAbs, Mat2.id]
  rw [compute_gain_of_solve_ok _ _ _ _ _ _ hsolve
    (by norm_num [vecMulMat, Vec2.dot, Mat2.id])]
  simp [vecMulMat, Vec2.dot, Vec2.scale, Mat2.id, Vec2.mk.injEq]

/-- When the gain computation fails, the LQR tick has no defined result (the
source `unwrap` panics). -/
theorem control_pendulum_lqr_of_error (p : Pendulum) (lqr : LQR) (e : RiccatiError)
    (h : compute_gain lqr.a lqr.b lqr.q lqr.r (1/10000000) = .error e) :
    control_pendulum_lqr p lqr = none := by
  unfold control_pendulum_lqr
  rw [h]

/-- When the gain computation succeeds, the LQR tick applies `u = -K·x`
through `set_control`. -/
theorem control_pendulum_lqr_of_ok (p : Pendulum) (lqr : LQR) (k : Vec2)
    (h : compute_gain lqr.a lqr.b lqr.q lqr.r (1/10000000) = .ok k) :
    control_pendulum_lqr p lqr =
      some (p.set_control (-(Vec2.dot k ⟨p.a - lqr.set_point, p.da - 0⟩))) := by
  unfold control_pendulum_lqr
  rw [h]

/-- The concrete `A = 0` gain computation drives one full LQR tick to a
defined result. -/
theorem control_pendulum_lqr_A_zero :
    control_pendulum_lqr Pendulum.default ⟨0, ⟨0, 0, 0, 0⟩, ⟨0, 0⟩, Mat2.id, 1⟩ =
      some { Pendulum.default with control := 0 } := by
  rw [control_pendulum_lqr_of_ok Pendulum.default ⟨0, ⟨0, 0, 0, 0⟩, ⟨0, 0⟩, Mat2.id, 1⟩
    ⟨0, 0⟩ compute_gain_A_zero]
  simp [Vec2.dot, Pendulum.set_control, clampQ]
  norm_num

/-! ## Claims -/

/-- Claim C1: `set_control` stores `clamp(v, -1, 1)` in the `control` field,
so every control value read by the integrator lies in `[-1, 1]` — for the
PID, LQR, keyboard and mouse controllers and all inputs; the integrator
itself never changes `control`, and the spawn default is `0`. -/
theorem C1_saturation_invariant : ∀ (p : Pendulum) (v : ℚ),
    (p.set_control v = { p with control := clampQ v (-1) 1 } ∧
     -1 ≤ (p.set_control v).control ∧ (p.set_control v).control ≤ 1) ∧
    (∀ pid : PID, -1 ≤ (control_pendulum_pid p pid).1.control ∧
      (control_pendulum_pid p pid).1.control ≤ 1) ∧
    (∀ (lqr : LQR) (p2 : Pendulum), control_pendulum_lqr p lqr = some p2 →
      -1 ≤ p2.control ∧ p2.control ≤ 1) ∧
    (∀ l r : Bool, -1 ≤ (control_pendulum_keyboard l r p).control ∧
      (control_pendulum_keyboard l r p).control ≤ 1) ∧
    (∀ ds : List ℚ, -1 ≤ (control_pendulum_mouse ds true p).control ∧
      (control_pendulum_mouse ds true p).control ≤ 1) ∧
    (∀ sinq : ℚ → ℚ, (move_pendulum sinq p).control = p.control) ∧
    (-1 ≤ Pendulum.default.control ∧ Pendulum.default.control ≤ 1) := by
  have key : ∀ (q : Pendulum) (w : ℚ),
      -1 ≤ (q.set_control w).control ∧ (q.set_control w).control ≤ 1 := by
    intro q w
    exact clampQ_bounds w (-1) 1 (by norm_num)
  intro p v
  refine ⟨⟨rfl, key p v⟩, fun pid => key p _, ?_, fun l r => key p _, fun ds => key p _,
    fun sinq => rfl, by norm_num [Pendulum.default]⟩
  intro lqr p2 h
  unfold control_pendulum_lqr at h
  cases hg : compute_gain lqr.a lqr.b lqr.q lqr.r (1/10000000) with
  | error e => rw [hg] at h; exact absurd h (by simp)
  | ok k =>
    rw [hg] at h
    simp only [Option.some.injEq] at h
    rw [← h]
    exact key p _

/-- Witness for C1 at a concrete input: a successful LQR tick (trivially
convergent system) produces a clamped control. -/
theorem C1_saturation_invariant_witness :
    -1 ≤ ({ Pendulum.default with control := 0 } : Pendulum).control ∧
    ({ Pendulum.default with control := 0 } : Pendulum).control ≤ 1 :=
  (C1_saturation_invariant Pendulum.default 0).2.2.1 ⟨0, ⟨0, 0, 0, 0⟩, ⟨0, 0⟩, Mat2.id, 1⟩
    { Pendulum.default with control := 0 } control_pendulum_lqr_A_zero

/-- Claim C2 (amended): when the Riccati gain computation fails with
`DidNotConverge` or `SingularGainMatrix`, the LQR tick `unwrap`s the error
and panics (no successor state); it does not hold the previous control. -/
theorem C2_lqr_failure_panics : ∀ (p : Pendulum) (lqr : LQR) (e : RiccatiError),
    compute_gain lqr.a lqr.b lqr.q lqr.r (1/10000000) = .error e →
    control_pendulum_lqr p lqr = none := by
  intro p lqr e h
  exact control_pendulum_lqr_of_error p lqr e h

/-- Counterexample to C2 as stated: on the default pendulum with the actuator
off (`control_power = 0`, the spec's own energy-decay configuration) the
solver fails with `DidNotConverge`, and the tick produces no state at all
(panic) instead of holding the previous control value. -/
theorem C2_lqr_failure_counterexample :
    compute_gain ({ Pendulum.default with control_power := 0 } : Pendulum).get_system.1
      ({ Pendulum.default with control_power := 0 } : Pendulum).get_system.2
      Mat2.id 1 (1/10000000) = .error .DidNotConverge ∧
    control_pendulum_lqr { Pendulum.default with control_power := 0 }
      { set_point := PI,
        a := ({ Pendulum.default with control_power := 0 } : Pendulum).get_system.1,
        b := ({ Pendulum.default with control_power := 0 } : Pendulum).get_system.2,
        q := Mat2.id, r := 1 } = none :=
  ⟨compute_gain_cp_zero_fails,
   control_pendulum_lqr_of_error _ _ .DidNotConverge compute_gain_cp_zero_fails⟩

/-- Witness for the amended C2 at the concrete failing input. -/
theorem C2_lqr_failure_witness :
    control_pendulum_lqr { Pendulum.default with control_power := 0 }
      { set_point := PI,
        a := ({ Pendulum.default with control_power := 0 } : Pendulum).get_system.1,
        b := ({ Pendulum.default with control_power := 0 } : Pendulum).get_system.2,
        q := Mat2.id, r := 1 } = none :=
  C2_lqr_failure_panics _ _ .DidNotConverge compute_gain_cp_zero_fails

/-- Claim C3: one integrator tick computes
`f = -g·sin(angle)/length - friction·angular_velocity`, updates the velocity
by `(f + control·control_power)·dt`, and advances the angle with the updated
velocity (semi-implicit Euler), with `dt = 0.05` and `g = 9.8`. -/
theorem C3_integrator_step : ∀ (sinq : ℚ → ℚ) (p : Pendulum),
    acceleration sinq p G = -(9.8 : ℚ) * sinq p.a / p.length - p.friction * p.da ∧
    (move_pendulum sinq p).da =
      p.da + (acceleration sinq p G + p.control * p.control_power) * (0.05 : ℚ) ∧
    (move_pendulum sinq p).a = p.a + (move_pendulum sinq p).da * (0.05 : ℚ) ∧
    DT = (0.05 : ℚ) ∧ G = (9.8 : ℚ) := by
  intro sinq p
  have hdt : DT = (0.05 : ℚ) := by norm_num [DT]
  have hg : G = (9.8 : ℚ) := by norm_num [G]
  refine ⟨?_, ?_, ?_, hdt, hg⟩
  · rw [acceleration, hg]
  · show p.da + (acceleration sinq p G + p.control * p.control_power) * DT = _
    rw [hdt]
  · show p.a + (move_pendulum sinq p).da * DT = _
    rw [hdt]

/-- Claim C4: the PID compute step uses `error = angle - set_point`,
`proportional = error·Kp`, `derivative = angular_velocity·Kd`, and passes
`proportional + accumulator + derivative` (with the updated accumulator) to
`set_control`, which clamps into `[-1, 1]`. -/
theorem C4_pid_compute : ∀ (p : Pendulum) (pid : PID),
    (control_pendulum_pid p pid).1 =
      p.set_control ((p.a - pid.set_point) * pid.proportional_gain +
        (control_pendulum_pid p pid).2.accumulator + p.da * pid.derivative_gain) ∧
    (∀ v : ℚ, (p.set_control v).control = clampQ v (-1) 1) := by
  intro p pid
  exact ⟨rfl, fun v => rfl⟩

/-- Claim C5: on every tick on which the accumulator ends up enabled, the
accumulator equals the update `acc + error·Ki·dt` clamped into
`[min(-1-(P+D),0), max(1-(P+D),0)]`, an interval that always contains `0`,
so the accumulator ends the step inside that headroom interval. -/
theorem C5_anti_windup_bound : ∀ (p : Pendulum) (pid : PID),
    (min (-1 - ((p.a - pid.set_point) * pid.proportional_gain +
        p.da * pid.derivative_gain)) 0 ≤ 0 ∧
      0 ≤ max (1 - ((p.a - pid.set_point) * pid.proportional_gain +
        p.da * pid.derivative_gain)) 0) ∧
    ((control_pendulum_pid p pid).2.accumulator_enabled = true →
      (control_pendulum_pid p pid).2.accumulator =
        clampQ (pid.accumulator + (p.a - pid.set_point) * pid.integral_gain * DT)
          (min (-1 - ((p.a - pid.set_point) * pid.proportional_gain +
            p.da * pid.derivative_gain)) 0)
          (max (1 - ((p.a - pid.set_point) * pid.proportional_gain +
            p.da * pid.derivative_gain)) 0) ∧
      min (-1 - ((p.a - pid.set_point) * pid.proportional_gain +
        p.da * pid.derivative_gain)) 0 ≤ (control_pendulum_pid p pid).2.accumulator ∧
      (control_pendulum_pid p pid).2.accumulator ≤
        max (1 - ((p.a - pid.set_point) * pid.proportional_gain +
          p.da * pid.derivative_gain)) 0) := by
  intro p pid
  refine ⟨⟨min_le_right _ _, le_max_right _ _⟩, ?_⟩
  intro h
  simp only [control_pendulum_pid] at h ⊢
  rw [h]
  have hlohi : min (-1 - ((p.a - pid.set_point) * pid.proportional_gain +
      p.da * pid.derivative_gain)) 0 ≤
      max (1 - ((p.a - pid.set_point) * pid.proportional_gain +
        p.da * pid.derivative_gain)) 0 :=
    le_trans (min_le_right _ _) (le_max_right _ _)
  exact ⟨by simp, (clampQ_bounds _ _ _ hlohi).1, (clampQ_bounds _ _ _ hlohi).2⟩

/-- Witness for C5 at a concrete input: the pendulum at the set point with
zero gains has the latch enabled and the accumulator inside the headroom
interval. -/
theorem C5_anti_windup_bound_witness :
    (control_pendulum_pid { Pendulum.default with a := 0, da := 0 }
      PID.default).2.accumulator_enabled = true ∧
    min (-1 - ((({ Pendulum.default with a := 0, da := 0 } : Pendulum).a -
        PID.default.set_point) * PID.default.proportional_gain +
        ({ Pendulum.default with a := 0, da := 0 } : Pendulum).da *
          PID.default.derivative_gain)) 0 ≤
      (control_pendulum_pid { Pendulum.default with a := 0, da := 0 }
        PID.default).2.accumulator ∧
    (control_pendulum_pid { Pendulum.default with a := 0, da := 0 }
        PID.default).2.accumulator ≤
      max (1 - ((({ Pendulum.default with a := 0, da := 0 } : Pendulum).a -
        PID.default.set_point) * PID.default.proportional_gain +
        ({ Pendulum.default with a := 0, da := 0 } : Pendulum).da *
          PID.default.derivative_gain)) 0 := by
  have hen : (control_pendulum_pid { Pendulum.default with a := 0, da := 0 }
      PID.default).2.accumulator_enabled = true := by
    simp [control_pendulum_pid, PID.default, Pendulum.default]
  have h := (C5_anti_windup_bound { Pendulum.default with a := 0, da := 0 }
    PID.default).2 hen
  exact ⟨hen, h.2.1, h.2.2⟩

/-- Claim C6: the latch becomes true on any PID step with `|error| < 0.05`,
stays true across PID steps, and while it is off the accumulator is
unchanged; among the configuration actions, only reset and a set-point
change clear it (writing the unchanged set point changes nothing). -/
theorem C6_accumulator_latch : ∀ (p : Pendulum) (pid : PID),
    ((|p.a - pid.set_point| < 1/20 →
        (control_pendulum_pid p pid).2.accumulator_enabled = true) ∧
     (pid.accumulator_enabled = true →
        (control_pendulum_pid p pid).2.accumulator_enabled = true) ∧
     ((control_pendulum_pid p pid).2.accumulator_enabled = false →
        (control_pendulum_pid p pid).2.accumulator = pid.accumulator)) ∧
    (∀ v : ℚ, v ≠ pid.set_point → (ui_set_point pid v).accumulator_enabled = false) ∧
    ui_set_point pid pid.set_point = pid ∧
    (∀ c : PID, (reset_pendulum p (some c)).2 =
      some { c with
              accumulator := 0
              accumulator_enabled := false
              error_history := []
              accumulator_history := [] }) := by
  intro p pid
  refine ⟨⟨?_, ?_, ?_⟩, ?_, ?_, fun c => rfl⟩
  · intro h
    simp only [control_pendulum_pid]
    rw [if_pos h]
  · intro h
    simp only [control_pendulum_pid]
    split
    · rfl
    · exact h
  · intro h
    simp only [control_pendulum_pid] at h ⊢
    rw [h]
    simp
  · intro v hv
    simp only [ui_set_point]
    rw [if_pos hv]
  · simp only [ui_set_point]
    simp

/-- Witness for C6 at concrete inputs: the latch turns on at zero error,
stays on, leaves the accumulator alone while off, and a genuine set-point
change clears it. -/
theorem C6_accumulator_latch_witness :
    (control_pendulum_pid { Pendulum.default with a := 0 }
      PID.default).2.accumulator_enabled = true ∧
    (control_pendulum_pid Pendulum.default
      { PID.default with accumulator_enabled := true }).2.accumulator_enabled = true ∧
    (control_pendulum_pid { Pendulum.default with a := 1 } PID.default).2.accumulator =
      PID.default.accumulator ∧
    (ui_set_point PID.default 1).accumulator_enabled = false := by
  refine ⟨?_, ?_, ?_, ?_⟩
  · exact (C6_accumulator_latch { Pendulum.default with a := 0 } PID.default).1.1
      (by norm_num [Pendulum.default, PID.default])
  · exact (C6_accumulator_latch Pendulum.default
      { PID.default with accumulator_enabled := true }).1.2.1 rfl
  · apply (C6_accumulator_latch { Pendulum.default with a := 1 } PID.default).1.2.2
    norm_num [control_pendulum_pid, Pendulum.default, PID.default]
  · exact (C6_accumulator_latch Pendulum.default PID.default).2.1 1
      (by norm_num [PID.default])

/-- Claim C7: `get_system` produces
`A = [[1 + g/(2L)·dt², dt - friction/2·dt²], [g/L·dt, 1 - friction·dt]]` and
`B = [[control_power/2·dt²], [control_power·dt]]`; the spawned LQR entity
stores exactly the `get_system` of its construction-time pendulum; and every
LQR tick with a fresh gain `K` applies `u = -K·[angle - set_point, da - 0]`
through `set_control`. -/
theorem C7_lqr_linearization_and_step : ∀ (p : Pendulum),
    (p.get_system.1 = ⟨1 + (9.8 : ℚ) / (2 * p.length) * (0.05 : ℚ) ^ 2,
        (0.05 : ℚ) - p.friction / 2 * (0.05 : ℚ) ^ 2,
        (9.8 : ℚ) / p.length * (0.05 : ℚ), 1 - p.friction * (0.05 : ℚ)⟩ ∧
     p.get_system.2 = ⟨p.control_power / 2 * (0.05 : ℚ) ^ 2,
        p.control_power * (0.05 : ℚ)⟩) ∧
    (add_pendulum_lqr.2.a = add_pendulum_lqr.1.get_system.1 ∧
     add_pendulum_lqr.2.b = add_pendulum_lqr.1.get_system.2) ∧
    (∀ (lqr : LQR) (k : Vec2),
      compute_gain lqr.a lqr.b lqr.q lqr.r (1/10000000) = .ok k →
      control_pendulum_lqr p lqr =
        some (p.set_control (-(Vec2.dot k ⟨p.a - lqr.set_point, p.da - 0⟩)))) := by
  intro p
  refine ⟨⟨?_, ?_⟩, ⟨rfl, rfl⟩, ?_⟩
  · simp only [Pendulum.get_system, DT, G, Mat2.mk.injEq]
    norm_num
  · simp only [Pendulum.get_system, DT, G, Vec2.mk.injEq]
    norm_num
  · intro lqr k h
    exact control_pendulum_lqr_of_ok p lqr k h

/-- Witness for C7 at a concrete input with a convergent gain computation. -/
theorem C7_lqr_linearization_and_step_witness :
    control_pendulum_lqr Pendulum.default ⟨0, ⟨0, 0, 0, 0⟩, ⟨0, 0⟩, Mat2.id, 1⟩ =
      some (Pendulum.default.set_control
        (-(Vec2.dot ⟨0, 0⟩ ⟨Pendulum.default.a - (0 : ℚ), Pendulum.default.da - 0⟩))) :=
  (C7_lqr_linearization_and_step Pendulum.default).2.2
    ⟨0, ⟨0, 0, 0, 0⟩, ⟨0, 0⟩, Mat2.id, 1⟩ ⟨0, 0⟩ compute_gain_A_zero

/-- Claim C9 (amended): on every tick the history system appends the current
control for each entity and, when a PID is attached, appends that tick's
error as `set_point - angle` — the negation of the PID compute step's
convention — and the accumulator. -/
theorem C9_history_append : ∀ (p : Pendulum) (c : PID),
    (history p none).1.control_history = p.control_history ++ [p.control] ∧
    (history p none).2 = none ∧
    (history p (some c)).1.control_history = p.control_history ++ [p.control] ∧
    (history p (some c)).2 =
      some { c with
              error_history := c.error_history ++ [c.set_point - p.a]
              accumulator_history := c.accumulator_history ++ [c.accumulator] } := by
  intro p c
  exact ⟨rfl, rfl, rfl, rfl⟩

/-- Counterexample to C9 as stated: with `angle = 1` and `set_point = 0` the
appended error is `-1`, while `angle - set_point = 1`. -/
theorem C9_history_counterexample :
    (history { Pendulum.default with a := 1 } (some PID.default)).2 =
      some { PID.default with error_history := [-1], accumulator_history := [0] } ∧
    ({ Pendulum.default with a := 1 } : Pendulum).a - PID.default.set_point = 1 ∧
    (-1 : ℚ) ≠ 1 := by
  refine ⟨?_, by norm_num [PID.default], by norm_num⟩
  simp only [history, PID.default]
  norm_num

/-- Claim C10 (amended): the reset action restores the spawn defaults
`angle = π + 0.5` and `angular_velocity = 0.1`, empties the control history,
and with a PID attached zeroes the accumulator, clears the latch and empties
both PID histories. -/
theorem C10_reset_defaults : ∀ (p : Pendulum) (c : PID),
    reset_pendulum p (some c) =
      ({ p with a := PI + 1/2, da := 1/10, control_history := [] },
       some { c with
               accumulator := 0
               accumulator_enabled := false
               error_history := []
               accumulator_history := [] }) ∧
    reset_pendulum p none =
      ({ p with a := PI + 1/2, da := 1/10, control_history := [] }, none) ∧
    Pendulum.default.a = PI + 1/2 ∧ Pendulum.default.da = 1/10 := by
  intro p c
  exact ⟨rfl, rfl, rfl, rfl⟩

/-- Counterexample to C10 as stated: reset restores `angle = π + 0.5` and
`angular_velocity = 0.1`, not `π` and `0.05`. -/
theorem C10_reset_counterexample :
    (reset_pendulum Pendulum.default none).1.a = PI + 1/2 ∧
    (reset_pendulum Pendulum.default none).1.da = 1/10 ∧
    ¬((reset_pendulum Pendulum.default none).1.a = PI ∧
      (reset_pendulum Pendulum.default none).1.da = 1/20) := by
  refine ⟨rfl, rfl, ?_⟩
  intro h
  have := h.2
  norm_num [reset_pendulum, Pendulum.default] at this

end PendulumControl
